import Mathlib

/-!
Verification of the simple_http_proxy repository.

Shallow embedding of `message_builder_http.py` and the routing / event-loop
logic of `proxy.py`.  Python `bytes` values are modelled as `List Char`
(all inputs of interest are ASCII, for which the `utf-8` decodes with
`errors="replace"` / `errors="ignore"` performed by the source are the
identity).  Python `str` values are modelled as `String` or `List Char`
as convenient.  Python `dict` values are modelled as insertion-ordered
association lists, matching CPython dict semantics (insertion order
preserved; updating an existing key keeps its position).
-/

namespace SimpleHttpProxy

/-! ### Python string primitives -/

/-- The whitespace set of Python `str.strip()` / regex `\s` (ASCII part). -/
def isPySpace (c : Char) : Bool :=
  c = ' ' || c = '\t' || c = '\n' || c = '\r' || c = '\x0b' || c = '\x0c'

/-- Python `strip()` on a character list. -/
def pyStripList (l : List Char) : List Char :=
  ((l.dropWhile isPySpace).reverse.dropWhile isPySpace).reverse

/-- Python `str.strip()`. -/
def pyStrip (s : String) : String :=
  String.mk (pyStripList s.toList)

/-- Python `str.lower()` (ASCII). -/
def pyLower (s : String) : String :=
  String.mk (s.toList.map Char.toLower)

/-- Decoding a byte list to a `str` (identity on our ASCII model). -/
def decodeStr (l : List Char) : String := String.mk l

/-- Prefix test `sep.isPrefixOf l` written out for `List Char` so proofs can unfold it. -/
def listStartsWith : List Char → List Char → Bool
  | [], _ => true
  | _ :: _, [] => false
  | a :: as, b :: bs => a = b && listStartsWith as bs

/-- Python `bytes.find(sep)` scanning from position `i`:
first index at which `sep` occurs, else `none` (Python returns `-1`). -/
def findSubAux (sep : List Char) : List Char → Nat → Option Nat
  | [], i => if sep = [] then some i else none
  | l@(_ :: rest), i =>
    if listStartsWith sep l then some i else findSubAux sep rest (i + 1)

/-- Python `sep in buf` for bytes. -/
def containsSub (sep l : List Char) : Bool :=
  (findSubAux sep l 0).isSome

/-- The terminator `b"\r\n\r\n"`. -/
def crlfcrlf : List Char := ['\r', '\n', '\r', '\n']

/-- The line separator `b"\r\n"`. -/
def crlf : List Char := ['\r', '\n']

/-- Python `raw.split(sep, 1)[0]`: the bytes before the first occurrence of
`sep` (the whole input when `sep` does not occur). -/
def splitBeforeSep (sep l : List Char) : List Char :=
  match findSubAux sep l 0 with
  | some i => l.take i
  | none => l

/-- Python `bytes.split(sep)` (full split, empty pieces kept).  Fueled
recursion; the Python loop terminates because each step drops at least
`sep.length > 0` characters, and every caller passes sufficient fuel. -/
def splitOnSepFuel (sep : List Char) : Nat → List Char → List (List Char)
  | 0, l => [l]
  | fuel + 1, l =>
    match findSubAux sep l 0 with
    | none => [l]
    | some i => l.take i :: splitOnSepFuel sep fuel (l.drop (i + sep.length))

/-- Python `bytes.split(b"\r\n")`. -/
def splitOnCRLF (l : List Char) : List (List Char) :=
  splitOnSepFuel crlf (l.length + 1) l

/-- Python `str.split()` (split on whitespace runs, discarding empties).
Fueled; callers pass `length + 1` which always suffices. -/
def pySplitWSFuel : Nat → List Char → List (List Char)
  | 0, _ => []
  | fuel + 1, l =>
    let l' := l.dropWhile isPySpace
    match l' with
    | [] => []
    | _ :: _ =>
      l'.takeWhile (fun c => !isPySpace c) ::
        pySplitWSFuel fuel (l'.dropWhile (fun c => !isPySpace c))

/-- Python `str.split()`. -/
def pySplitWS (l : List Char) : List (List Char) :=
  pySplitWSFuel (l.length + 1) l

/-- Python `line.split(":", 1)`: the part before the first `':'` and the
part after it. -/
def splitOnceColon (l : List Char) : List Char × List Char :=
  (l.takeWhile (fun c => c ≠ ':'), (l.dropWhile (fun c => c ≠ ':')).drop 1)

/-- Digit-run accumulator for Python `int()`: digits, with single `'_'`
separators allowed only between digits. -/
def pyIntAux (acc : Nat) : List Char → Option Nat
  | [] => some acc
  | '_' :: c :: rest =>
    if c.isDigit then pyIntAux (acc * 10 + (c.toNat - 48)) rest else none
  | ['_'] => none
  | c :: rest =>
    if c.isDigit then pyIntAux (acc * 10 + (c.toNat - 48)) rest else none

/-- Python `int(s)` restricted to a sign-less digit body. -/
def pyIntDigits : List Char → Option Nat
  | [] => none
  | c :: rest => if c.isDigit then pyIntAux (c.toNat - 48) rest else none

/-- Python `int(s)`: strips whitespace, allows one optional sign, then a
digit run; `none` models `ValueError`. -/
def pyParseInt (s : String) : Option Int :=
  match pyStripList s.toList with
  | '+' :: r => (pyIntDigits r).map (fun n => (n : Int))
  | '-' :: r => (pyIntDigits r).map (fun n => -(n : Int))
  | r => (pyIntDigits r).map (fun n => (n : Int))

/-! ### Python dict model (insertion-ordered association list) -/

/-- Assignment `d[k] = v` on a Python dict: update in place if the key exists
(keeping its position), else append. -/
def dictInsert (m : List (String × String)) (k v : String) :
    List (String × String) :=
  if m.any (fun p => p.1 = k) then
    m.map (fun p => if p.1 = k then (k, v) else p)
  else m ++ [(k, v)]

/-- Lookup `d.get(k, default)` on a Python dict. -/
def dictGet (m : List (String × String)) (k default : String) : String :=
  match m.find? (fun p => p.1 = k) with
  | some p => p.2
  | none => default

/-! ### MessageBuilderHTTP (`message_builder_http.py`) -/

/-- The fields created by `MessageBuilderHTTP.__init__` with their initial
values.  Python stores `status_code = 0` (an int) initially and a string
after parsing; both render identically in the only observation the source
makes (string formatting in `build_full_message`), so the field is a
`String` initialised to `"0"`.

`x_request_id` is NOT a field created by `__init__`, and nothing in
`message_builder_http.py` ever assigns it; `proxy.py` nevertheless reads
`request.x_request_id`.  We model the dynamic Python attribute as an
`Option String` where `none` means "attribute missing" (so that a read
raises `AttributeError`). -/
structure MessageBuilderHTTP where
  is_response : Bool := false
  headers_received : Bool := false
  header_buffer : List Char := []
  headers : List (String × String) := []
  method : String := ""
  path : String := ""
  http_version : String := "HTTP/1.1"
  content_length : Int := 0
  body_received : Int := 0
  body_data : List Char := []
  status_code : String := "0"
  status_message : String := ""
  keep_alive : Bool := true
  x_request_id : Option String := none
  deriving Repr, DecidableEq

/-- Constructor `MessageBuilderHTTP()` / `reset()`. -/
def initMB : MessageBuilderHTTP := {}

/-- First section of `parse_header_lines`: the request/response start line
(`lines[0]`). -/
def parseFirstLine (b : MessageBuilderHTTP) (first_line : List Char) :
    MessageBuilderHTTP :=
  let parts := pySplitWS first_line
  match parts with
  | p0 :: p1 :: p2 :: restParts =>
    if listStartsWith "HTTP".toList p0 then
      { b with
        is_response := true
        http_version := String.mk p0
        status_code := String.mk p1
        status_message :=
          String.intercalate " " ((p2 :: restParts).map String.mk) }
    else
      { b with
        method := String.mk p0
        path := String.mk p1
        http_version := String.mk p2 }
  | _ => b

/-- One header line of `parse_header_lines` (split once on `':'`, strip,
store; lines without `':'` are skipped). -/
def processHeaderLine (b : MessageBuilderHTTP) (line : List Char) :
    MessageBuilderHTTP :=
  if ':' ∈ line then
    let kv := splitOnceColon line
    { b with
      headers := dictInsert b.headers
        (String.mk (pyStripList kv.1)) (String.mk (pyStripList kv.2)) }
  else b

/-- Third section of `parse_header_lines`: `Content-Length` (exact-case
dict lookup; `int()` failure is caught and yields `0`). -/
def setContentLength (b : MessageBuilderHTTP) : MessageBuilderHTTP :=
  let cl := dictGet b.headers "Content-Length" "0"
  { b with
    content_length :=
      match pyParseInt cl with
      | some n => n
      | none => 0 }

/-- Final section of `parse_header_lines`: keep-alive from the
`Connection` header (exact-case dict lookup, lower-cased value). -/
def setKeepAlive (b : MessageBuilderHTTP) : MessageBuilderHTTP :=
  let conn_hdr := pyLower (dictGet b.headers "Connection" "")
  if b.http_version = "HTTP/1.1" then
    if conn_hdr = "close" then { b with keep_alive := false } else b
  else
    { b with keep_alive := conn_hdr = "keep-alive" }

/-- Method `MessageBuilderHTTP.parse_header_lines`. -/
def parse_header_lines (b : MessageBuilderHTTP) (header_part : List Char) :
    MessageBuilderHTTP :=
  let lines := splitOnCRLF header_part
  let b1 := parseFirstLine b (lines.headD [])
  let b2 := lines.tail.foldl processHeaderLine b1
  setKeepAlive (setContentLength b2)

/-- The header-accumulation loop of `parse_data`: append one byte at a
time to `header_buffer`; when `b"\r\n\r\n"` occurs in the buffer, mark
headers received, parse the header block and break.  Returns the updated
builder and the number of bytes consumed. -/
def headerPhase (b : MessageBuilderHTTP) : List Char → MessageBuilderHTTP × Nat
  | [] => (b, 0)
  | c :: rest =>
    let hb := b.header_buffer ++ [c]
    if containsSub crlfcrlf hb then
      (parse_header_lines
        { b with header_buffer := hb, headers_received := true }
        (splitBeforeSep crlfcrlf hb), 1)
    else
      let r := headerPhase { b with header_buffer := hb } rest
      (r.1, r.2 + 1)

/-- The body-accumulation step of `parse_data`. -/
def bodyPhase (b : MessageBuilderHTTP) (remaining : List Char) :
    MessageBuilderHTTP × Nat :=
  if b.headers_received then
    let body_needed : Int := b.content_length - b.body_received
    if body_needed > 0 ∧ remaining.length > 0 then
      let can_take : Nat := min body_needed.toNat remaining.length
      ({ b with
          body_data := b.body_data ++ remaining.take can_take
          body_received := b.body_received + (can_take : Int) }, can_take)
    else (b, 0)
  else (b, 0)

/-- Method `MessageBuilderHTTP.parse_data`: returns the updated builder and the
number of bytes consumed from `data`. -/
def parse_data (b : MessageBuilderHTTP) (data : List Char) :
    MessageBuilderHTTP × Nat :=
  if b.headers_received then
    bodyPhase b data
  else
    let r := headerPhase b data
    let r2 := bodyPhase r.1 (data.drop r.2)
    (r2.1, r.2 + r2.2)

/-- Method `MessageBuilderHTTP.is_complete`. -/
def is_complete (b : MessageBuilderHTTP) : Bool :=
  b.headers_received && b.body_received ≥ b.content_length

/-- Method `MessageBuilderHTTP.build_full_message` (the second definition in the
source file, which shadows the first). -/
def build_full_message (b : MessageBuilderHTTP) : List Char :=
  let start :=
    if b.is_response then
      (b.http_version ++ " " ++ b.status_code ++ " " ++ b.status_message).toList
        ++ crlf
    else
      (b.method ++ " " ++ b.path ++ " " ++ b.http_version).toList ++ crlf
  let withHeaders :=
    b.headers.foldl
      (fun acc kv => acc ++ (kv.1 ++ ": " ++ kv.2).toList ++ crlf) start
  withHeaders ++ crlf ++ (if b.body_data = [] then [] else b.body_data)

/-! ### `_find_message_boundaries` (`proxy.py`) -/

/-- One attempt of the regex `Content-Length:\s*(\d+)` (IGNORECASE) at the
head of `l`: the literal (case-insensitively), then a maximal whitespace
run, then at least one digit. -/
def matchCLAt (l : List Char) : Option Nat :=
  let key := "content-length:".toList
  if (l.take 15).map Char.toLower = key then
    let ds := ((l.drop 15).dropWhile isPySpace).takeWhile Char.isDigit
    match ds with
    | [] => none
    | _ :: _ => some (ds.foldl (fun acc c => acc * 10 + (c.toNat - 48)) 0)
  else none

/-- Semantics of `re.search(r"Content-Length:\s*(\d+)", s, re.IGNORECASE)`: value of
the leftmost match, if any. -/
def findCL : List Char → Option Nat
  | [] => none
  | l@(_ :: rest) =>
    match matchCLAt l with
    | some n => some n
    | none => findCL rest

/-- The scan loop of `_find_message_boundaries`.  Fueled; the Python loop
terminates because `message_end = header_end + 4 + content_length` is
strictly beyond `current_pos`, and callers pass `buffer.length + 1` fuel,
which suffices since each step advances the position by at least 4. -/
def fmbLoop (buffer : List Char) : Nat → Nat → List (List Char)
  | 0, _ => []
  | fuel + 1, pos =>
    if pos < buffer.length then
      match findSubAux crlfcrlf (buffer.drop pos) 0 with
      | none => [buffer.drop pos]
      | some rel =>
        let header_end := pos + rel
        let header_part := (buffer.drop pos).take rel
        let content_length := (findCL header_part).getD 0
        let message_end := header_end + 4 + content_length
        if message_end > buffer.length then [buffer.drop pos]
        else
          ((buffer.drop pos).take (rel + 4 + content_length)) ::
            fmbLoop buffer fuel message_end
    else []

/-- Method `ProxyServer._find_message_boundaries`. -/
def find_message_boundaries (buffer : List Char) : List (List Char) :=
  fmbLoop buffer (buffer.length + 1) 0

/-! ### The receive path of `handle_read_event` (`proxy.py`), client side

The socket read itself is external I/O; `data` below is the chunk
returned by `recv`.  Routing of a completed message
(`_handle_complete_client_request`) is modelled separately; here a
completed message is recorded in the output list, in processing order,
which is the observation the framing claims are about. -/

/-- The per-connection parser state the read path manipulates
(`SocketContext.recv_buffer` / `SocketContext.current_request`). -/
structure ClientReadCtx where
  recv_buffer : List Char
  current_request : MessageBuilderHTTP
  deriving Repr, DecidableEq

/-- A fresh client context (as built by `handle_new_connection`). -/
def initReadCtx : ClientReadCtx :=
  { recv_buffer := [], current_request := initMB }

/-- Outcome of one `handle_read_event`: either the connection stays open
with an updated context, or `close_connection` was invoked.  `completed`
lists the messages that reached the complete-message handler, in order. -/
inductive ReadResult where
  | ok (ctx : ClientReadCtx) (completed : List MessageBuilderHTTP)
  | closed (completed : List MessageBuilderHTTP)
  deriving Repr, DecidableEq

/-- Whether the read outcome tore the connection down. -/
def ReadResult.isClosed : ReadResult → Bool
  | .ok _ _ => false
  | .closed _ => true

/-- The completed messages of a read outcome. -/
def ReadResult.completed : ReadResult → List MessageBuilderHTTP
  | .ok _ c => c
  | .closed c => c

/-- The `for i, message in enumerate(messages)` loop of
`handle_read_event` (client socket).  `first` tracks `i == 0`; the last
message is recognised by `rest = []`. -/
def readLoop (st : ClientReadCtx) (acc : List MessageBuilderHTTP)
    (first : Bool) : List (List Char) → ReadResult
  | [] => .ok st acc
  | msg :: rest =>
    let builder := if first then st.current_request else initMB
    let r := parse_data builder msg
    if r.2 > 0 then
      if is_complete r.1 then
        let st' := if first then { st with current_request := initMB } else st
        readLoop st' (acc ++ [r.1]) false rest
      else
        match rest with
        | [] =>
          .ok { recv_buffer := msg.drop r.2, current_request := r.1 } acc
        | _ :: _ => .closed acc
    else
      match rest with
      | [] => .ok { st with recv_buffer := msg } acc
      | _ :: _ => .closed acc

/-- Method `handle_read_event` for a client connection, given the bytes `recv`
returned (empty bytes mean the peer closed). -/
def handle_read_event (ctx : ClientReadCtx) (data : List Char) : ReadResult :=
  match data with
  | [] => .closed []
  | _ :: _ =>
    let buf := ctx.recv_buffer ++ data
    let messages := find_message_boundaries buf
    match messages with
    | [] => .ok { ctx with recv_buffer := buf } []
    | _ :: _ =>
      readLoop { ctx with recv_buffer := buf } [] true messages

/-- The request targets (`path`) of the completed messages of a read
outcome — the observable used to compare framing across chunkings. -/
def completedPaths (r : ReadResult) : List String :=
  r.completed.map (fun b => b.path)

/-! ### Pipelining router (`proxy.py`)

State reachable from the routing handlers.  Sockets and `epoll` are
external; the epoll interest mask registered for each connection is
modelled as an `interest` field.  Python exceptions that the source does
not catch on these paths are modelled as `Except` errors. -/

/-- Python exceptions relevant to the modelled paths. -/
inductive PyErr where
  | attributeError
  | keyError
  deriving Repr, DecidableEq

/-- The epoll interest mask (`READ_ONLY` / `READ_WRITE`). -/
inductive Interest where
  | read
  | readWrite
  deriving Repr, DecidableEq

/-- Lookup `d.get(k)` on a `Dict[str, int]` (Python returns `None` if absent). -/
def alistGet (m : List (String × Nat)) (k : String) : Option Nat :=
  match m.find? (fun p => p.1 = k) with
  | some p => some p.2
  | none => none

/-- Deletion `del d[k]` on a `Dict[str, int]` (callers check presence first). -/
def alistDel (m : List (String × Nat)) (k : String) : List (String × Nat) :=
  m.filter (fun p => ¬ p.1 = k)

/-- Assignment `d[k] = v` on a `Dict[str, int]`: update in place if present, else
append. -/
def alistSet (m : List (String × Nat)) (k : String) (v : Nat) :
    List (String × Nat) :=
  if m.any (fun p => p.1 = k) then
    m.map (fun p => if p.1 = k then (k, v) else p)
  else m ++ [(k, v)]

/-- Client-connection fields used by the router
(`SocketContext` for a `CLIENT_TO_PROXY` socket).  `emitted` is
specification instrumentation, not source state: it records, in order,
the request IDs whose responses have been appended to `send_buffer`. -/
structure CCtx where
  client_request_order : List String
  request_queue : List (String × MessageBuilderHTTP)
  response_queue : List (String × MessageBuilderHTTP)
  send_buffer : List Char
  interest : Interest
  emitted : List String
  deriving Repr, DecidableEq

/-- Backend-connection fields used by the router
(`SocketContext` for a `PROXY_TO_BACKEND` socket). -/
structure BCtx where
  request_queue : List (String × MessageBuilderHTTP)
  send_buffer : List Char
  interest : Interest
  deriving Repr, DecidableEq

/-- Map `fd_to_socket_context` lookups restricted to client connections. -/
def clientsGet : List (Nat × CCtx) → Nat → Option CCtx
  | [], _ => none
  | p :: t, fd => if p.1 = fd then some p.2 else clientsGet t fd

/-- Replace the context stored for `fd` (in-place mutation in Python). -/
def clientsSet : List (Nat × CCtx) → Nat → CCtx → List (Nat × CCtx)
  | [], _, _ => []
  | p :: t, fd, c => (if p.1 = fd then (fd, c) else p) :: clientsSet t fd c

/-- The loop-owned process state touched by the router
(`req_to_client`, the connection contexts, and the round-robin state). -/
structure ProxySt where
  req_to_client : List (String × Nat)
  clients : List (Nat × CCtx)
  deriving Repr, DecidableEq

/-- First entry of `response_queue` whose ID equals `expected`
(the inner `for` loop of `_prepare_next_client_response`). -/
def findFirstMatch (expected : String) :
    List (String × MessageBuilderHTTP) →
      Option (String × MessageBuilderHTTP)
  | [] => none
  | (rid, resp) :: rest =>
    if rid = expected then some (rid, resp) else findFirstMatch expected rest

/-- Removal `response_queue.remove((resp_id, response))`: CPython removes the
first list element equal to the found pair; since the found pair is the
first entry whose ID is `expected`, that element is removed. -/
def removeFirstMatch (expected : String) :
    List (String × MessageBuilderHTTP) → List (String × MessageBuilderHTTP)
  | [] => []
  | (rid, resp) :: rest =>
    if rid = expected then rest
    else (rid, resp) :: removeFirstMatch expected rest

/-- Method `ProxyServer._prepare_next_client_response`.  The `while` loop either
finds the response matching `client_request_order[0]`, emits it and
returns, or breaks on the first iteration, so at most one response is
emitted per call.  `del self.req_to_client[resp_id]` raises `KeyError`
when the ID is not in the map. -/
def prepare_next_client_response (m : List (String × Nat)) (c : CCtx) :
    Except PyErr (List (String × Nat) × CCtx) :=
  match c.client_request_order, c.response_queue with
  | expected :: restOrder, _ :: _ =>
    match findFirstMatch expected c.response_queue with
    | some p =>
      if (alistGet m p.1).isSome then
        .ok (alistDel m p.1,
          { c with
            client_request_order := restOrder
            response_queue := removeFirstMatch expected c.response_queue
            send_buffer := c.send_buffer ++ build_full_message p.2
            emitted := c.emitted ++ [p.1] })
      else .error .keyError
    | none => .ok (m, c)
  | _, _ => .ok (m, c)

/-- Method `ProxyServer._handle_complete_backend_response`.  The first statement
reads `response.x_request_id`; `AttributeError` if the attribute was
never assigned.  A missing map entry or missing context is skipped by
the source's truthiness checks (note that a client on file descriptor 0
would also be skipped, since `if client_fd:` is false for `0`). -/
def handle_complete_backend_response (st : ProxySt)
    (response : MessageBuilderHTTP) : Except PyErr ProxySt :=
  match response.x_request_id with
  | none => .error .attributeError
  | some x =>
    let response_id := pyStrip x
    match alistGet st.req_to_client response_id with
    | none => .ok st
    | some client_fd =>
      if client_fd = 0 then .ok st
      else
        match clientsGet st.clients client_fd with
        | none => .ok st
        | some ctx =>
          let ctx1 :=
            { ctx with
              response_queue := ctx.response_queue ++ [(response_id, response)] }
          match
            (if ctx1.send_buffer = [] then
              prepare_next_client_response st.req_to_client ctx1
            else .ok (st.req_to_client, ctx1)) with
          | .error e => .error e
          | .ok r =>
            .ok { st with
                  req_to_client := r.1
                  clients :=
                    clientsSet st.clients client_fd
                      { r.2 with interest := .readWrite } }

/-- Method `ProxyServer.handle_write_event` for a client connection.  `sent` is
the byte count the kernel accepted.  A missing context would raise
`KeyError`, which the bare `except Exception` clause swallows without
closing, leaving the state unchanged; errors raised after mutation are
swallowed the same way — the theorems below concern error-free
executions, and the error case is collapsed to an `Except` error. -/
def handle_write_event_client (st : ProxySt) (fd : Nat) (sent : Nat) :
    Except PyErr ProxySt :=
  match clientsGet st.clients fd with
  | none => .ok st
  | some ctx =>
    if ctx.send_buffer = [] then .ok st
    else if sent = 0 then .ok st
    else
      let ctx1 := { ctx with send_buffer := ctx.send_buffer.drop sent }
      if ctx1.send_buffer = [] then
        match prepare_next_client_response st.req_to_client ctx1 with
        | .error e => .error e
        | .ok r =>
          let ctx2 :=
            if r.2.send_buffer = [] then { r.2 with interest := .read }
            else r.2
          .ok { st with
                req_to_client := r.1
                clients := clientsSet st.clients fd ctx2 }
      else .ok { st with clients := clientsSet st.clients fd ctx1 }

/-- Router-relevant events on a client's response path: a backend
response completes, or the client socket becomes writable and `sent`
bytes are flushed. -/
inductive RouterEv where
  | backendResp (resp : MessageBuilderHTTP)
  | clientDrain (fd : Nat) (sent : Nat)

/-- Dispatch one event. -/
def routerStep (st : ProxySt) : RouterEv → Except PyErr ProxySt
  | .backendResp resp => handle_complete_backend_response st resp
  | .clientDrain fd sent => handle_write_event_client st fd sent

/-- Run a sequence of events. -/
def runTrace (st : ProxySt) : List RouterEv → Except PyErr ProxySt
  | [] => .ok st
  | ev :: evs =>
    match routerStep st ev with
    | .error e => .error e
    | .ok st1 => runTrace st1 evs

/-! ### `_handle_complete_client_request` and the dispatcher -/

/-- Method `ProxyServer._prepare_next_backend_request`. -/
def prepare_next_backend_request (b : BCtx) : BCtx :=
  match b.request_queue with
  | [] => b
  | p :: rest =>
    { b with
      request_queue := rest
      send_buffer := b.send_buffer ++ build_full_message p.2
      interest := .readWrite }

/-- The round-robin selection of `_handle_complete_client_request`
(`proxy.py` lines 352–354): `backend = backend_servers[backend_index];
backend_index = (backend_index + 1) % num_backends`.  Returns the list
of selected backend indices across `n` successive dispatches. -/
def dispatchSeq (num_backends : Nat) (backend_index : Nat) : Nat → List Nat
  | 0 => []
  | n + 1 =>
    backend_index ::
      dispatchSeq num_backends ((backend_index + 1) % num_backends) n

/-- The state `_handle_complete_client_request` touches beyond `ProxySt`:
round-robin position and the backend contexts, keyed by the backend
address selected (`address_to_fd` composed with `fd_to_socket_context`;
the pool keeps one connection per address). -/
structure DispatchSt where
  router : ProxySt
  backend_index : Nat
  num_backends : Nat
  backendCtxs : List (Nat × BCtx)
  deriving Repr, DecidableEq

/-- Backend context lookup. -/
def backendsGet (m : List (Nat × BCtx)) (i : Nat) : Option BCtx :=
  match m.find? (fun p => p.1 = i) with
  | some p => some p.2
  | none => none

/-- Backend context update. -/
def backendsSet (m : List (Nat × BCtx)) (i : Nat) (b : BCtx) :
    List (Nat × BCtx) :=
  m.map (fun p => if p.1 = i then (i, b) else p)

/-- Method `ProxyServer._handle_complete_client_request`.  Its very first
statement evaluates `request.x_request_id` (`proxy.py` line 336):
`AttributeError` when the attribute was never assigned — and
`message_builder_http.py` never assigns it.  The remaining steps are
modelled for the hypothetical attribute-present case: `fresh` stands for
the `uuid.uuid4()` value; `_get_or_create_backend` is modelled as
returning the context slot of the selected backend index (socket
creation is external I/O). -/
def handle_complete_client_request (fresh : String) (st : DispatchSt)
    (client_fd : Nat) (request : MessageBuilderHTTP) :
    Except PyErr DispatchSt :=
  match request.x_request_id with
  | none => .error .attributeError
  | some rid0 =>
    let request :=
      if rid0 = "" then
        { request with
          x_request_id := some fresh
          headers := dictInsert request.headers "X-Request-ID" fresh }
      else request
    let request_id := (request.x_request_id).getD fresh
    let router1 :=
      { st.router with
        req_to_client := alistSet st.router.req_to_client request_id client_fd }
    match clientsGet router1.clients client_fd with
    | none => .error .keyError
    | some cctx =>
      let cctx1 :=
        { cctx with
          client_request_order := cctx.client_request_order ++ [request_id]
          request_queue := cctx.request_queue ++ [(request_id, request)] }
      let router2 :=
        { router1 with clients := clientsSet router1.clients client_fd cctx1 }
      let chosen := st.backend_index
      let idx' := (st.backend_index + 1) % st.num_backends
      match backendsGet st.backendCtxs chosen with
      | none => .ok { st with router := router2, backend_index := idx' }
      | some bctx =>
        let bctx1 :=
          { bctx with request_queue := bctx.request_queue ++ [(request_id, request)] }
        let bctx2 :=
          if bctx1.send_buffer = [] then prepare_next_backend_request bctx1
          else bctx1
        .ok { st with
              router := router2
              backend_index := idx'
              backendCtxs :=
                backendsSet st.backendCtxs chosen
                  { bctx2 with interest := .readWrite } }

/-! ### `close_connection` (`proxy.py`) -/

/-- The process maps `close_connection` touches.  The context value is
represented by the `address` field the final logging statement reads. -/
structure CloseSt where
  fd_to_socket : List Nat
  fd_to_socket_context : List (Nat × String)
  epoll_registered : List Nat
  deriving Repr, DecidableEq

/-- Context lookup for `CloseSt`. -/
def ctxGet (m : List (Nat × String)) (fd : Nat) : Option String :=
  match m.find? (fun p => p.1 = fd) with
  | some p => some p.2
  | none => none

/-- Method `ProxyServer.close_connection`.  After unregistering and deleting the
socket and its context, the final `logging.info` f-string evaluates
`self.fd_to_socket_context[file_no].address` — a lookup of the entry
that was just deleted, hence `KeyError`. -/
def close_connection (st : CloseSt) (file_no : Nat) :
    Except PyErr CloseSt :=
  if file_no ∈ st.fd_to_socket then
    let st1 :=
      { st with
        epoll_registered := st.epoll_registered.filter (fun f => ¬ f = file_no)
        fd_to_socket := st.fd_to_socket.filter (fun f => ¬ f = file_no) }
    let st2 :=
      if (ctxGet st1.fd_to_socket_context file_no).isSome then
        { st1 with
          fd_to_socket_context :=
            st1.fd_to_socket_context.filter (fun p => ¬ p.1 = file_no) }
      else st1
    match ctxGet st2.fd_to_socket_context file_no with
    | some _ => .ok st2
    | none => .error .keyError
  else .ok st

/-! ### Concrete instances used by the theorems below -/

/-- Pipelined request `GET /a` (scenario S1 of the specification). -/
def reqA : List Char := "GET /a HTTP/1.1\r\n\r\n".toList

/-- Pipelined request `GET /b`. -/
def reqB : List Char := "GET /b HTTP/1.1\r\n\r\n".toList

/-- The context left behind after `reqA` arrives alone: the completed
request was handled but `recv_buffer` still holds the already-consumed
bytes. -/
def staleCtxA : ClientReadCtx :=
  { recv_buffer := reqA, current_request := initMB }

/-- A request that carries a caller-supplied `X-Request-ID` (scenario S3
of the specification). -/
def reqWithId : List Char :=
  "GET / HTTP/1.1\r\nX-Request-ID: caller-42\r\n\r\n".toList

/-- The parsed form of `reqWithId`. -/
def reqWithIdMsg : MessageBuilderHTTP := (parse_data initMB reqWithId).1

/-- A backend response that carries `X-Request-ID` in its header block. -/
def respWithId : List Char :=
  "HTTP/1.1 200 OK\r\nX-Request-ID: caller-42\r\nContent-Length: 0\r\n\r\n".toList

/-- The parsed form of `respWithId`. -/
def respWithIdMsg : MessageBuilderHTTP := (parse_data initMB respWithId).1

/-- A hypothetical backend response carrying request ID `rid` in the
dynamic attribute, as `_handle_complete_backend_response` expects. -/
def respOf (rid : String) : MessageBuilderHTTP :=
  { initMB with
    is_response := true
    status_code := "200"
    status_message := "OK"
    x_request_id := some rid }

/-- A client that has sent two pipelined requests, `id1` then `id2`,
with nothing yet emitted. -/
def clientTwoPending : CCtx :=
  { client_request_order := ["id1", "id2"]
    request_queue := []
    response_queue := []
    send_buffer := []
    interest := .read
    emitted := [] }

/-- Router state: the client above on file descriptor 7, both IDs
in-flight in `req_to_client`. -/
def routerTwoPending : ProxySt :=
  { req_to_client := [("id1", 7), ("id2", 7)]
    clients := [(7, clientTwoPending)] }

/-- Dispatch state wrapped around `routerTwoPending` (two configured
backends, none yet connected). -/
def dispatchTwoPending : DispatchSt :=
  { router := routerTwoPending
    backend_index := 0
    num_backends := 2
    backendCtxs := [] }

/-- The client context after the out-of-order response `id2` has been
queued while nothing could be emitted. -/
def clientAfterOutOfOrder : CCtx :=
  { clientTwoPending with
    response_queue := [("id2", respOf "id2")]
    interest := .readWrite }

/-- The router state after the out-of-order response `id2` arrives while
the client's `send_buffer` is empty: the response is queued, nothing is
emitted, yet the client is promoted to `READ_WRITE`. -/
def routerAfterOutOfOrder : ProxySt :=
  { req_to_client := [("id1", 7), ("id2", 7)]
    clients := [(7, clientAfterOutOfOrder)] }

/-- The byte length of one serialized `respOf` message (used as the
`send` count that drains the client's buffer exactly). -/
def respLen : Nat := (build_full_message (respOf "id1")).length

/-- Out-of-order event trace: response `id2` completes before `id1`;
the client socket then drains three times. -/
def outOfOrderTrace : List RouterEv :=
  [.backendResp (respOf "id2"), .backendResp (respOf "id1"),
   .clientDrain 7 respLen, .clientDrain 7 respLen, .clientDrain 7 respLen]

/-- The request-order ghost assignment for `routerTwoPending`. -/
def orderTwoPending : Nat → List String := fun _ => ["id1", "id2"]

/-- The client context after `outOfOrderTrace` has fully drained: both
responses were emitted in request order. -/
def drainedClient : CCtx :=
  { client_request_order := []
    request_queue := []
    response_queue := []
    send_buffer := []
    interest := .read
    emitted := ["id1", "id2"] }

/-- The fully-drained final state of `outOfOrderTrace`: both responses
were emitted in request order and the client is back to `Read`
interest. -/
def routerDrained : ProxySt :=
  { req_to_client := []
    clients := [(7, drainedClient)] }

/-- A request whose header block carries a non-integer `Content-Length`
and a `Transfer-Encoding` header. -/
def reqMalformed : List Char :=
  "GET / HTTP/1.1\r\nContent-Length: abc\r\nTransfer-Encoding: chunked\r\n\r\n".toList

/-- Process state with two live connections, used for teardown. -/
def closeTwoConns : CloseSt :=
  { fd_to_socket := [5, 6]
    fd_to_socket_context := [(5, "addr-5"), (6, "addr-6")]
    epoll_registered := [5, 6] }

/-! ### Helper lemmas -/

/-- A context lookup after deleting the key's entries finds nothing. -/
theorem ctxGet_filter_self (m : List (Nat × String)) (fd : Nat) :
    ctxGet (m.filter (fun p => ¬ p.1 = fd)) fd = none := by
  induction m with
  | nil => rfl
  | cons p t ih =>
    by_cases h : p.1 = fd
    · simpa [List.filter_cons, h] using ih
    · simpa [ctxGet, List.filter_cons, h, List.find?] using
        (by simpa [ctxGet] using ih : _)

/-- Keep-alive computation does not change the stored headers. -/
theorem setKeepAlive_headers (b : MessageBuilderHTTP) :
    (setKeepAlive b).headers = b.headers := by
  simp only [setKeepAlive]
  split_ifs <;> rfl

/-- Keep-alive computation does not change `content_length`. -/
theorem setKeepAlive_content_length (b : MessageBuilderHTTP) :
    (setKeepAlive b).content_length = b.content_length := by
  simp only [setKeepAlive]
  split_ifs <;> rfl

/-- Keep-alive computation does not change `http_version`. -/
theorem setKeepAlive_http_version (b : MessageBuilderHTTP) :
    (setKeepAlive b).http_version = b.http_version := by
  simp only [setKeepAlive]
  split_ifs <;> rfl

/-- Content-length computation does not change the stored headers. -/
theorem setContentLength_headers (b : MessageBuilderHTTP) :
    (setContentLength b).headers = b.headers := rfl

/-- Content-length computation does not change `keep_alive`. -/
theorem setContentLength_keep_alive (b : MessageBuilderHTTP) :
    (setContentLength b).keep_alive = b.keep_alive := rfl

/-- Content-length computation does not change `http_version`. -/
theorem setContentLength_http_version (b : MessageBuilderHTTP) :
    (setContentLength b).http_version = b.http_version := rfl

/-- The terminator never occurs in a byte list containing no `'\r'`. -/
theorem findSubAux_crlfcrlf_none (l : List Char) (hl : ∀ c ∈ l, c ≠ '\r') :
    ∀ i, findSubAux crlfcrlf l i = none := by
  induction l with
  | nil => intro i; rfl
  | cons c rest ih =>
    intro i
    have hc : ¬ ('\r' = c) := fun h => hl c (by simp) h.symm
    have hpre : listStartsWith crlfcrlf (c :: rest) = false := by
      simp [crlfcrlf, listStartsWith, hc]
    rw [findSubAux, hpre]
    simp only [Bool.false_eq_true, if_false]
    exact ih (fun x hx => hl x (by simp [hx])) (i + 1)

/-- Without a terminator in sight, the header loop consumes everything
into `header_buffer` and leaves the builder otherwise untouched. -/
theorem headerPhase_no_terminator (data : List Char) :
    ∀ (b : MessageBuilderHTTP),
      (∀ c ∈ b.header_buffer ++ data, c ≠ '\r') →
      headerPhase b data
        = ({ b with header_buffer := b.header_buffer ++ data }, data.length) := by
  induction data with
  | nil => intro b _; simp [headerPhase]
  | cons c rest ih =>
    intro b h
    have hterm : containsSub crlfcrlf (b.header_buffer ++ [c]) = false := by
      unfold containsSub
      rw [findSubAux_crlfcrlf_none]
      · rfl
      · intro x hx
        apply h
        rcases List.mem_append.mp hx with hx1 | hx1
        · exact List.mem_append.mpr (Or.inl hx1)
        · simp at hx1
          simp [hx1]
    have hrec := ih { b with header_buffer := b.header_buffer ++ [c] }
      (by
        intro x hx
        apply h
        simp only [List.append_assoc, List.singleton_append] at hx
        exact hx)
    rw [headerPhase, hterm]
    simp only [Bool.false_eq_true, if_false, hrec]
    simp [List.append_assoc]

/-- Receive-path behaviour on terminator-free input from a fresh client:
everything is absorbed into the in-progress builder, nothing completes,
and the connection stays open. -/
theorem handle_read_no_terminator :
    ∀ (data : List Char), data ≠ [] → (∀ c ∈ data, c ≠ '\r') →
      handle_read_event initReadCtx data
        = .ok ⟨[], { initMB with header_buffer := data }⟩ []
  | [], h0, _ => absurd rfl h0
  | c :: rest, _, h => by
    have hfind : findSubAux crlfcrlf (c :: rest) 0 = none :=
      findSubAux_crlfcrlf_none _ h 0
    have hHP : headerPhase initMB (c :: rest)
        = ({ initMB with header_buffer := c :: rest }, (c :: rest).length) :=
      headerPhase_no_terminator _ _ (by simpa [initMB] using h)
    have h1 : initMB.headers_received = false := rfl
    simp [handle_read_event, initReadCtx, find_message_boundaries, fmbLoop,
      hfind, readLoop, parse_data, hHP, bodyPhase, is_complete, h1,
      List.drop_length]

/-- Updating a present key makes later lookups of it return the new
value. -/
theorem clientsGet_set_self (m : List (Nat × CCtx)) (fd : Nat) (c0 c : CCtx)
    (h : clientsGet m fd = some c0) :
    clientsGet (clientsSet m fd c) fd = some c := by
  induction m with
  | nil => exact absurd h (by simp [clientsGet])
  | cons x t ih =>
    by_cases hk : x.1 = fd
    · simp [clientsGet, clientsSet, hk]
    · rw [clientsGet, if_neg hk] at h
      simp only [clientsSet, clientsGet, if_neg hk]
      exact ih h

/-- Updating one key leaves lookups of other keys unchanged. -/
theorem clientsGet_set_other (m : List (Nat × CCtx)) (fd : Nat) (c : CCtx)
    (fd' : Nat) (h : fd' ≠ fd) :
    clientsGet (clientsSet m fd c) fd' = clientsGet m fd' := by
  induction m with
  | nil => rfl
  | cons x t ih =>
    by_cases hk : x.1 = fd
    · have hne1 : ¬ ((fd : Nat) = fd') := fun hh => h hh.symm
      have hne2 : ¬ (x.1 = fd') := fun hh => h (hh.symm.trans hk)
      simp only [clientsSet, clientsGet, if_pos hk, if_neg hne1,
        if_neg hne2]
      exact ih
    · simp only [clientsSet, clientsGet, if_neg hk]
      by_cases hk' : x.1 = fd'
      · simp [hk']
      · simp only [if_neg hk', ih]

/-- Matches returned by `findFirstMatch` carry the expected ID. -/
theorem findFirstMatch_id (expected : String) :
    ∀ (q : List (String × MessageBuilderHTTP))
      (p : String × MessageBuilderHTTP),
      findFirstMatch expected q = some p → p.1 = expected := by
  intro q
  induction q with
  | nil => intro p h; exact absurd h (by simp [findFirstMatch])
  | cons x t ih =>
    intro p h
    obtain ⟨rid, resp⟩ := x
    rw [findFirstMatch] at h
    split_ifs at h with hx
    · cases h; exact hx
    · exact ih p h

/-- One call to `_prepare_next_client_response` moves at most the head of
`client_request_order` into `emitted`, so their concatenation is
invariant. -/
theorem prepare_preserves_order (m : List (String × Nat)) (c : CCtx)
    (m' : List (String × Nat)) (c' : CCtx)
    (hok : prepare_next_client_response m c = .ok (m', c')) :
    c'.emitted ++ c'.client_request_order
      = c.emitted ++ c.client_request_order := by
  obtain ⟨ord, rq, respq, sb, int, em⟩ := c
  cases ord with
  | nil =>
    simp [prepare_next_client_response] at hok
    rw [← hok.2]
  | cons e rest =>
    cases respq with
    | nil =>
      simp [prepare_next_client_response] at hok
      rw [← hok.2]
    | cons q qs =>
      rcases hfm : findFirstMatch e (q :: qs) with _ | p
      · simp [prepare_next_client_response, hfm] at hok
        rw [← hok.2]
      · by_cases hget : (alistGet m p.1).isSome
        · simp [prepare_next_client_response, hfm, hget] at hok
          rw [← hok.2]
          have hpe := findFirstMatch_id e (q :: qs) p hfm
          simp [hpe]
        · simp [prepare_next_client_response, hfm, hget] at hok

/-- One router step preserves, for every client, the invariant that
`emitted ++ client_request_order` equals that client's original request
sequence. -/
theorem routerStep_preserves (R : Nat → List String) (st st' : ProxySt)
    (ev : RouterEv)
    (hP : ∀ fd c, clientsGet st.clients fd = some c →
      c.emitted ++ c.client_request_order = R fd)
    (hstep : routerStep st ev = .ok st') :
    ∀ fd c, clientsGet st'.clients fd = some c →
      c.emitted ++ c.client_request_order = R fd := by
  cases ev with
  | backendResp resp =>
    rw [routerStep] at hstep
    unfold handle_complete_backend_response at hstep
    rcases hx : resp.x_request_id with _ | x
    · rw [hx] at hstep; cases hstep
    · rw [hx] at hstep
      dsimp only at hstep
      rcases hmap : alistGet st.req_to_client (pyStrip x) with _ | fd0
      · rw [hmap] at hstep; cases hstep; exact hP
      · rw [hmap] at hstep
        dsimp only at hstep
        by_cases hz : fd0 = 0
        · rw [if_pos hz] at hstep; cases hstep; exact hP
        · rw [if_neg hz] at hstep
          rcases hctx : clientsGet st.clients fd0 with _ | ctx
          · rw [hctx] at hstep; cases hstep; exact hP
          · rw [hctx] at hstep
            dsimp only at hstep
            rcases hpre :
              (if ({ ctx with response_queue :=
                      ctx.response_queue ++ [(pyStrip x, resp)] } :
                    CCtx).send_buffer = [] then
                prepare_next_client_response st.req_to_client
                  { ctx with response_queue :=
                      ctx.response_queue ++ [(pyStrip x, resp)] }
              else
                .ok (st.req_to_client,
                  { ctx with response_queue :=
                      ctx.response_queue ++ [(pyStrip x, resp)] }))
              with e | r
            · rw [hpre] at hstep; cases hstep
            · rw [hpre] at hstep
              cases hstep
              intro fd c hget
              by_cases hfd : fd = fd0
              · subst hfd
                rw [clientsGet_set_self st.clients fd ctx _ hctx] at hget
                cases hget
                have hr2 : r.2.emitted ++ r.2.client_request_order
                    = ctx.emitted ++ ctx.client_request_order := by
                  by_cases hsb :
                      ({ ctx with response_queue :=
                          ctx.response_queue ++ [(pyStrip x, resp)] } :
                        CCtx).send_buffer = []
                  · rw [if_pos hsb] at hpre
                    simpa using prepare_preserves_order _ _ r.1 r.2 hpre
                  · rw [if_neg hsb] at hpre
                    cases hpre
                    rfl
                simpa [hr2] using hP fd ctx hctx
              · rw [clientsGet_set_other st.clients fd0 _ fd hfd] at hget
                exact hP fd c hget
  | clientDrain fd0 sent =>
    rw [routerStep] at hstep
    unfold handle_write_event_client at hstep
    rcases hctx : clientsGet st.clients fd0 with _ | ctx
    · rw [hctx] at hstep; cases hstep; exact hP
    · rw [hctx] at hstep
      dsimp only at hstep
      by_cases hemp : ctx.send_buffer = []
      · rw [if_pos hemp] at hstep; cases hstep; exact hP
      · rw [if_neg hemp] at hstep
        by_cases hsent : sent = 0
        · rw [if_pos hsent] at hstep; cases hstep; exact hP
        · rw [if_neg hsent] at hstep
          by_cases hsb :
              ({ ctx with send_buffer := ctx.send_buffer.drop sent } :
                CCtx).send_buffer = []
          · rw [if_pos hsb] at hstep
            rcases hpre : prepare_next_client_response st.req_to_client
                { ctx with send_buffer := ctx.send_buffer.drop sent }
              with e | r
            · rw [hpre] at hstep; cases hstep
            · rw [hpre] at hstep
              cases hstep
              intro fd c hget
              by_cases hfd : fd = fd0
              · subst hfd
                rw [clientsGet_set_self st.clients fd ctx _ hctx] at hget
                have hr2 : r.2.emitted ++ r.2.client_request_order
                    = ctx.emitted ++ ctx.client_request_order := by
                  simpa using prepare_preserves_order _ _ r.1 r.2 hpre
                have hc : c.emitted ++ c.client_request_order
                    = r.2.emitted ++ r.2.client_request_order := by
                  cases hget
                  by_cases hr2e : r.2.send_buffer = [] <;> simp [hr2e]
                rw [hc, hr2]
                exact hP fd ctx hctx
              · rw [clientsGet_set_other st.clients fd0 _ fd hfd] at hget
                exact hP fd c hget
          · rw [if_neg hsb] at hstep
            cases hstep
            intro fd c hget
            by_cases hfd : fd = fd0
            · subst hfd
              rw [clientsGet_set_self st.clients fd ctx _ hctx] at hget
              cases hget
              simpa using hP fd ctx hctx
            · rw [clientsGet_set_other st.clients fd0 _ fd hfd] at hget
              exact hP fd c hget

/-- Trace-level preservation of the ordering invariant. -/
theorem runTrace_preserves (R : Nat → List String) :
    ∀ (evs : List RouterEv) (st st' : ProxySt),
      (∀ fd c, clientsGet st.clients fd = some c →
        c.emitted ++ c.client_request_order = R fd) →
      runTrace st evs = .ok st' →
      ∀ fd c, clientsGet st'.clients fd = some c →
        c.emitted ++ c.client_request_order = R fd := by
  intro evs
  induction evs with
  | nil =>
    intro st st' hP h
    rw [runTrace] at h
    cases h
    exact hP
  | cons ev evs ih =>
    intro st st' hP h
    rw [runTrace] at h
    rcases hst1 : routerStep st ev with e | st1
    · rw [hst1] at h; cases h
    · rw [hst1] at h
      exact ih st1 st' (routerStep_preserves R st st1 ev hP hst1) h

/-- The dispatch sequence starting at a valid index is the sequence of
successive residues modulo the backend count. -/
theorem dispatchSeq_eq_map (K : Nat) (hK : 0 < K) :
    ∀ (n i : Nat), i < K →
      dispatchSeq K i n = (List.range n).map (fun t => (i + t) % K) := by
  intro n
  induction n with
  | zero => intro i _; rfl
  | succ m ih =>
    intro i hi
    rw [dispatchSeq, ih ((i + 1) % K) (Nat.mod_lt _ hK),
      List.range_succ_eq_map]
    simp only [List.map_cons, List.map_map]
    have hhead : (i + 0) % K = i := by
      rw [Nat.add_zero, Nat.mod_eq_of_lt hi]
    rw [hhead]
    have hf : (fun t => ((i + 1) % K + t) % K)
        = ((fun t => (i + t) % K) ∘ Nat.succ) := by
      funext t
      simp only [Function.comp]
      rw [Nat.mod_add_mod]
      congr 1
      omega
    rw [hf]

/-- Counting one residue class among the first `N` residues modulo `K`. -/
theorem count_map_mod_range (K : Nat) (hK : 0 < K) (j : Nat) (hj : j < K) :
    ∀ N, ((List.range N).map (fun t => t % K)).count j
      = N / K + if j < N % K then 1 else 0 := by
  intro N
  induction N with
  | zero => simp
  | succ M ih =>
    rw [List.range_succ, List.map_append, List.count_append, ih]
    simp only [List.map_cons, List.map_nil, List.count_cons, List.count_nil,
      beq_iff_eq]
    have hdm : M / K * K + M % K = M := by
      have h0 := Nat.div_add_mod M K
      rw [Nat.mul_comm] at h0
      exact h0
    have hr : M % K < K := Nat.mod_lt _ hK
    rcases Nat.lt_or_ge (M % K + 1) K with hlt | hge
    · have hsum : M + 1 = (M % K + 1) + M / K * K := by omega
      have hdiv : (M + 1) / K = M / K := by
        rw [hsum, Nat.add_mul_div_right _ _ hK, Nat.div_eq_of_lt hlt,
          Nat.zero_add]
      have hmod : (M + 1) % K = M % K + 1 := by
        rw [hsum, Nat.add_mul_mod_self_right, Nat.mod_eq_of_lt hlt]
      rw [hdiv, hmod]
      split_ifs <;> omega
    · have heq : M % K + 1 = K := by omega
      have hsum : M + 1 = (M / K + 1) * K := by
        rw [Nat.succ_mul]
        omega
      have hdiv : (M + 1) / K = M / K + 1 := by
        rw [hsum, Nat.mul_div_cancel _ hK]
      have hmod : (M + 1) % K = 0 := by
        rw [hsum, Nat.mul_mod_left]
      rw [hdiv, hmod]
      split_ifs <;> omega

/-- Ceiling division when the remainder is non-zero. -/
theorem ceil_div_of_mod_ne_zero (N K : Nat) (hK : 0 < K)
    (h : N % K ≠ 0) : (N + K - 1) / K = N / K + 1 := by
  have hdm : N / K * K + N % K = N := by
    have h0 := Nat.div_add_mod N K
    rw [Nat.mul_comm] at h0
    exact h0
  have hr : N % K < K := Nat.mod_lt _ hK
  have hsum : N + K - 1 = (N % K - 1) + (N / K + 1) * K := by
    rw [Nat.succ_mul]
    omega
  rw [hsum, Nat.add_mul_div_right _ _ hK, Nat.div_eq_of_lt (by omega)]
  omega

/-- Keep-alive is untouched by start-line parsing. -/
theorem parseFirstLine_keep_alive (b : MessageBuilderHTTP) (l : List Char) :
    (parseFirstLine b l).keep_alive = b.keep_alive := by
  rw [parseFirstLine]
  generalize pySplitWS l = parts
  rcases parts with _ | ⟨p0, _ | ⟨p1, _ | ⟨p2, rest⟩⟩⟩
  · rfl
  · rfl
  · rfl
  · dsimp only
    split_ifs <;> rfl

/-- Keep-alive is untouched by header-line storage. -/
theorem processHeaderLine_keep_alive (b : MessageBuilderHTTP)
    (line : List Char) :
    (processHeaderLine b line).keep_alive = b.keep_alive := by
  rw [processHeaderLine]
  split_ifs <;> rfl

/-- Keep-alive is untouched by the whole header fold. -/
theorem foldl_processHeaderLine_keep_alive (lines : List (List Char)) :
    ∀ b, (lines.foldl processHeaderLine b).keep_alive = b.keep_alive := by
  induction lines with
  | nil => intro b; rfl
  | cons l t ih =>
    intro b
    rw [List.foldl_cons, ih, processHeaderLine_keep_alive]

/-! ### Claim theorems -/

/-- C1: per-client response ordering.  First conjunct (emission rule of
`_prepare_next_client_response`, which is what appends serialized
responses to the client's `send_buffer`): a call emits a response with ID
`i` iff `i` is the front of `client_request_order`, some queued response
carries `i`, and `i` is in `req_to_client` (so the `del` succeeds).
Second conjunct: across any error-free sequence of completed backend
responses and client write events, every client's emitted IDs form a
prefix of the IDs of the requests it sent, in order — the i-th delivered
response carries the i-th request's ID. -/
theorem c1_response_ordering :
    (∀ (m m' : List (String × Nat)) (c c' : CCtx) (i : String),
      prepare_next_client_response m c = .ok (m', c') →
      (c'.emitted = c.emitted ++ [i] ↔
        c.client_request_order.head? = some i ∧
        (findFirstMatch i c.response_queue).isSome = true ∧
        (alistGet m i).isSome = true)) ∧
    (∀ (R : Nat → List String) (st : ProxySt) (evs : List RouterEv)
      (st' : ProxySt),
      (∀ fd c, clientsGet st.clients fd = some c →
        c.emitted ++ c.client_request_order = R fd) →
      runTrace st evs = .ok st' →
      ∀ fd c', clientsGet st'.clients fd = some c' →
        c'.emitted ++ c'.client_request_order = R fd ∧
        c'.emitted = (R fd).take c'.emitted.length) := by
  constructor
  · intro m m' c c' i hok
    obtain ⟨ord, rq, respq, sb, int, em⟩ := c
    cases ord with
    | nil =>
      simp [prepare_next_client_response] at hok
      constructor
      · intro hem
        rw [← hok.2] at hem
        simp at hem
      · rintro ⟨h1, -, -⟩
        simp at h1
    | cons e rest =>
      cases respq with
      | nil =>
        simp [prepare_next_client_response] at hok
        constructor
        · intro hem
          rw [← hok.2] at hem
          simp at hem
        · rintro ⟨-, h2, -⟩
          simp [findFirstMatch] at h2
      | cons q qs =>
        rcases hfm : findFirstMatch e (q :: qs) with _ | p
        · simp [prepare_next_client_response, hfm] at hok
          constructor
          · intro hem
            rw [← hok.2] at hem
            simp at hem
          · rintro ⟨h1, h2, -⟩
            simp at h1
            rw [← h1, hfm] at h2
            simp at h2
        · by_cases hget : (alistGet m p.1).isSome
          · have hpe := findFirstMatch_id e (q :: qs) p hfm
            simp [prepare_next_client_response, hfm, hget] at hok
            constructor
            · intro hem
              rw [← hok.2] at hem
              simp at hem
              refine ⟨by simp [hpe.symm.trans hem], ?_, ?_⟩
              · rw [← hem, hpe, hfm]
                rfl
              · rw [← hem]
                exact hget
            · rintro ⟨h1, -, -⟩
              rw [← hok.2]
              simp at h1
              simp [hpe.trans h1]
          · simp [prepare_next_client_response, hfm, hget] at hok
  · intro R st evs st' hP ht fd c' hget
    have h1 := runTrace_preserves R evs st st' hP ht fd c' hget
    refine ⟨h1, ?_⟩
    conv_rhs => rw [← h1]
    rw [List.take_left]

/-- Witness for `c1_response_ordering` on the out-of-order scenario S1:
response `id2` completes before `id1`, yet after the trace drains the
client has emitted exactly `["id1", "id2"]` — the request order. -/
theorem c1_response_ordering_witness :
    drainedClient.emitted ++ drainedClient.client_request_order
      = orderTwoPending 7 ∧
    drainedClient.emitted
      = (orderTwoPending 7).take drainedClient.emitted.length := by
  refine (c1_response_ordering.2 orderTwoPending routerTwoPending
    outOfOrderTrace routerDrained ?_ (by rfl) 7 drainedClient (by rfl))
  intro fd c h
  simp only [routerTwoPending, clientsGet] at h
  by_cases h7 : ((7, clientTwoPending) : Nat × CCtx).1 = fd
  · rw [if_pos h7] at h
    cases h
    rfl
  · rw [if_neg h7] at h
    simp [clientsGet] at h

/-- C2 (code bug): the specification says the parser captures a supplied
`X-Request-ID` verbatim into the message's `requestId` field and that the
proxy otherwise mints and injects one.  In the code,
`MessageBuilderHTTP` never assigns the `x_request_id` attribute, so a
parsed request stores the header only in `headers` and leaves the
attribute missing; both `_handle_complete_client_request` and
`_handle_complete_backend_response` then raise `AttributeError` on their
first read of it, and no request is ever forwarded. -/
theorem c2_request_id_attribute_missing :
    is_complete reqWithIdMsg = true ∧
    dictGet reqWithIdMsg.headers "X-Request-ID" "" = "caller-42" ∧
    reqWithIdMsg.x_request_id = none ∧
    handle_complete_client_request "uuid-1" dispatchTwoPending 7 reqWithIdMsg
      = .error .attributeError ∧
    is_complete respWithIdMsg = true ∧
    respWithIdMsg.x_request_id = none ∧
    handle_complete_backend_response routerTwoPending respWithIdMsg
      = .error .attributeError := by
  exact ⟨rfl, rfl, rfl, rfl, rfl, rfl, rfl⟩

/-- C3 (code bug): framing is not chunking-invariant.  Feeding
`GET /a` then `GET /b` in two `recv` calls makes the receive path
process `/a` twice (the consumed bytes are never removed from
`recv_buffer` after a complete message), whereas feeding the
concatenated stream at once completes each message exactly once. -/
theorem c3_rechunk_duplicates_first_request :
    completedPaths (handle_read_event initReadCtx (reqA ++ reqB))
      = ["/a", "/b"] ∧
    handle_read_event initReadCtx reqA
      = .ok staleCtxA [(parse_data initMB reqA).1] ∧
    completedPaths (handle_read_event staleCtxA reqB) = ["/a", "/b"] ∧
    ¬ (completedPaths (handle_read_event initReadCtx reqA) ++
        completedPaths (handle_read_event staleCtxA reqB)
        = completedPaths (handle_read_event initReadCtx (reqA ++ reqB))) := by
  refine ⟨rfl, rfl, rfl, ?_⟩
  decide

/-- C4 (code bug): after an out-of-order backend response is queued for a
client whose `send_buffer` is empty, `_handle_complete_backend_response`
unconditionally promotes the client socket to `READ_WRITE` even though
nothing was emitted, and a subsequent write event on the empty buffer
leaves the registration unchanged — violating the invariant that
`ReadWrite` interest implies a non-empty `outBuf` (or, for a backend, a
non-empty pending-request queue). -/
theorem c4_write_interest_with_empty_buffer :
    handle_complete_backend_response routerTwoPending (respOf "id2")
      = .ok routerAfterOutOfOrder ∧
    clientsGet routerAfterOutOfOrder.clients 7 = some clientAfterOutOfOrder ∧
    clientAfterOutOfOrder.send_buffer = [] ∧
    clientAfterOutOfOrder.interest = .readWrite ∧
    handle_write_event_client routerAfterOutOfOrder 7 4096
      = .ok routerAfterOutOfOrder := by
  exact ⟨rfl, rfl, rfl, rfl, rfl⟩

/-- C8 (code bug): `close_connection` always raises.  For any state in
which `file_no` is a live socket, after unregistering and deleting the
socket and its context, the final logging statement reads
`fd_to_socket_context[file_no].address` — the entry that was just
deleted — so the teardown raises `KeyError` instead of returning;
the exception propagates out of the event loop's dispatch. -/
theorem c8_close_connection_raises (st : CloseSt) (fd : Nat)
    (h : fd ∈ st.fd_to_socket) :
    close_connection st fd = .error .keyError := by
  unfold close_connection
  rw [if_pos h]
  by_cases hc :
      (ctxGet st.fd_to_socket_context fd).isSome
  · simp only [hc, if_true, ctxGet_filter_self]
  · have hnone : ctxGet st.fd_to_socket_context fd = none := by
      cases hcc : ctxGet st.fd_to_socket_context fd with
      | none => rfl
      | some v => rw [hcc] at hc; simp at hc
    simp [hnone]

/-- Witness for `c8_close_connection_raises` at a concrete two-connection
state. -/
theorem c8_close_connection_raises_witness :
    5 ∈ closeTwoConns.fd_to_socket ∧
    close_connection closeTwoConns 5 = .error .keyError :=
  ⟨by decide, c8_close_connection_raises closeTwoConns 5 (by decide)⟩

/-- C5: round-robin dispatch.  Starting from index 0 with `K` configured
backends, the `t`-th completed request selects backend `t % K`
(equivalently `backends[index % K]` with the index incremented each
time), and across `N` sequential requests each backend index `j < K`
receives either `⌊N/K⌋` or `⌈N/K⌉ = (N + K - 1) / K` requests. -/
theorem c5_round_robin_fairness (K N : Nat) (hK : 0 < K) :
    dispatchSeq K 0 N = (List.range N).map (fun t => t % K) ∧
    ∀ j, j < K →
      (dispatchSeq K 0 N).count j = N / K ∨
      (dispatchSeq K 0 N).count j = (N + K - 1) / K := by
  have hmap : dispatchSeq K 0 N = (List.range N).map (fun t => t % K) := by
    rw [dispatchSeq_eq_map K hK N 0 hK]
    have hfun : (fun t => (0 + t) % K) = (fun t : Nat => t % K) := by
      funext t
      rw [Nat.zero_add]
    rw [hfun]
  refine ⟨hmap, ?_⟩
  intro j hj
  rw [hmap, count_map_mod_range K hK j hj N]
  by_cases hcase : j < N % K
  · right
    rw [ceil_div_of_mod_ne_zero N K hK (by omega)]
    simp [hcase]
  · left
    simp [hcase]

/-- Witness for `c5_round_robin_fairness` with 3 backends and 7
requests. -/
theorem c5_round_robin_fairness_witness :
    dispatchSeq 3 0 7 = (List.range 7).map (fun t => t % 3) ∧
    ((dispatchSeq 3 0 7).count 1 = 7 / 3 ∨
      (dispatchSeq 3 0 7).count 1 = (7 + 3 - 1) / 3) :=
  ⟨(c5_round_robin_fairness 3 7 (by decide)).1,
    (c5_round_robin_fairness 3 7 (by decide)).2 1 (by decide)⟩

/-- C6 (counterexample): feeding 9000 bytes with no `CRLF CRLF` does NOT
tear the connection down and produces no error — the parser has no
header-size check at all, refuting the claim that inputs exceeding 8192
header bytes fail with `HeadersTooLarge` and are torn down. -/
theorem c6_counterexample_oversize_headers_kept :
    (handle_read_event initReadCtx (List.replicate 9000 'a')).isClosed
      = false ∧
    (handle_read_event initReadCtx (List.replicate 9000 'a')).completed
      = [] := by
  have hne : List.replicate 9000 'a' ≠ [] := by
    intro hh
    have h9 := congrArg List.length hh
    rw [List.length_replicate] at h9
    simp at h9
  have h := handle_read_no_terminator (List.replicate 9000 'a') hne
    (fun c hc => by rw [List.eq_of_mem_replicate hc]; decide)
  rw [h]
  exact ⟨rfl, rfl⟩

/-- C6 (amended): the parser imposes no header-size limit.  Any
terminator-free input — in particular one exceeding 8192 bytes — is
accumulated in full into `header_buffer`, the message stays incomplete,
no error of any kind is reported, and the connection is not torn down. -/
theorem c6_amended_no_header_limit (data : List Char) (h0 : data ≠ [])
    (h : ∀ c ∈ data, c ≠ '\r') (hbig : 8192 < data.length) :
    handle_read_event initReadCtx data
      = .ok ⟨[], { initMB with header_buffer := data }⟩ [] ∧
    8192 <
      ({ initMB with header_buffer := data } :
        MessageBuilderHTTP).header_buffer.length ∧
    is_complete { initMB with header_buffer := data } = false :=
  ⟨handle_read_no_terminator data h0 h, by simpa using hbig, rfl⟩

/-- Witness for `c6_amended_no_header_limit` on 9000 bytes of `'a'`. -/
theorem c6_amended_no_header_limit_witness :
    handle_read_event initReadCtx (List.replicate 9000 'a')
      = .ok ⟨[], { initMB with header_buffer := List.replicate 9000 'a' }⟩
          [] ∧
    8192 <
      ({ initMB with header_buffer := List.replicate 9000 'a' } :
        MessageBuilderHTTP).header_buffer.length ∧
    is_complete { initMB with header_buffer := List.replicate 9000 'a' }
      = false :=
  c6_amended_no_header_limit (List.replicate 9000 'a')
    (by
      intro hh
      have h9 := congrArg List.length hh
      rw [List.length_replicate] at h9
      simp at h9)
    (fun c hc => by rw [List.eq_of_mem_replicate hc]; decide)
    (by rw [List.length_replicate]; norm_num)

/-- C7 (counterexample): a message with non-integer `Content-Length` and
a `Transfer-Encoding` header is NOT rejected: the receive path completes
it (with `content_length` silently treated as 0, `Transfer-Encoding`
stored like any other header) and the connection is kept open, refuting
the claim that such messages yield a `MalformedMessage` error and a
teardown. -/
theorem c7_counterexample_no_malformed_error :
    (handle_read_event initReadCtx reqMalformed).isClosed = false ∧
    (handle_read_event initReadCtx reqMalformed).completed.map
      (fun b => b.content_length) = [0] ∧
    (handle_read_event initReadCtx reqMalformed).completed.map
      (fun b => dictGet b.headers "Transfer-Encoding" "") = ["chunked"] ∧
    (handle_read_event initReadCtx reqMalformed).completed.map is_complete
      = [true] := by
  exact ⟨rfl, rfl, rfl, rfl⟩

/-- C7 (amended): the parser has no `MalformedMessage` outcome: a
`Content-Length` value that does not parse as an integer is treated as 0
(for every input), and the `Transfer-Encoding` message above is accepted
without teardown. -/
theorem c7_amended_lenient_parsing :
    (∀ (b : MessageBuilderHTTP) (hp : List Char),
      pyParseInt
        (dictGet (parse_header_lines b hp).headers "Content-Length" "0")
        = none →
      (parse_header_lines b hp).content_length = 0) ∧
    (handle_read_event initReadCtx reqMalformed).isClosed = false := by
  constructor
  · intro b hp h
    have h2 : pyParseInt (dictGet
        (List.foldl processHeaderLine
          (parseFirstLine b ((splitOnCRLF hp).headD []))
          (splitOnCRLF hp).tail).headers "Content-Length" "0") = none := by
      simpa only [parse_header_lines, setKeepAlive_headers,
        setContentLength_headers] using h
    simp only [parse_header_lines, setKeepAlive_content_length,
      setContentLength, h2]
  · rfl

/-- Witness for `c7_amended_lenient_parsing` at a concrete non-integer
`Content-Length`. -/
theorem c7_amended_lenient_parsing_witness :
    (parse_header_lines initMB
      "GET / HTTP/1.1\r\nContent-Length: abc".toList).content_length = 0 :=
  c7_amended_lenient_parsing.1 initMB
    "GET / HTTP/1.1\r\nContent-Length: abc".toList (by decide)

/-- C9 (counterexample): header-name lookups are case-sensitive, so the
computed `content_length` and `keep_alive` DO depend on the sender's
header-name casing: `content-length: 5` is not recognised (length 0,
where `Content-Length: 5` yields 5) and `CONNECTION: close` is not
recognised (keep-alive stays true, where `Connection: close` turns it
off). -/
theorem c9_counterexample_case_sensitive :
    (parse_header_lines initMB
      "GET / HTTP/1.1\r\ncontent-length: 5".toList).content_length = 0 ∧
    (parse_header_lines initMB
      "GET / HTTP/1.1\r\nContent-Length: 5".toList).content_length = 5 ∧
    (parse_header_lines initMB
      "GET / HTTP/1.1\r\nCONNECTION: close".toList).keep_alive = true ∧
    (parse_header_lines initMB
      "GET / HTTP/1.1\r\nConnection: close".toList).keep_alive = false := by
  exact ⟨rfl, rfl, rfl, rfl⟩

/-- C9 (amended): header-name lookups are exact-case.  The computed
`content_length` is always derived from the stored headers via an
exact-case `Content-Length` lookup (first conjunct, for every input), so
other casings — stored verbatim but never consulted — leave the computed
values at their defaults: the computed `content_length` and `keep_alive`
depend on the sender's header-name casing. -/
theorem c9_amended_case_sensitive_lookup :
    (∀ (b : MessageBuilderHTTP) (hp : List Char),
      (parse_header_lines b hp).content_length =
        (match pyParseInt (dictGet (parse_header_lines b hp).headers
            "Content-Length" "0") with
         | some n => n
         | none => 0)) ∧
    (parse_header_lines initMB
      "GET / HTTP/1.1\r\ncontent-length: 7".toList).content_length = 0 ∧
    (parse_header_lines initMB
      "GET / HTTP/1.1\r\nCONTENT-LENGTH: 7".toList).content_length = 0 ∧
    (parse_header_lines initMB
      "GET / HTTP/1.1\r\nContent-Length: 7".toList).content_length = 7 ∧
    (parse_header_lines initMB
      "GET / HTTP/1.0\r\nconnection: keep-alive".toList).keep_alive
        = false ∧
    (parse_header_lines initMB
      "GET / HTTP/1.0\r\nConnection: keep-alive".toList).keep_alive
        = true := by
  refine ⟨?_, rfl, rfl, rfl, rfl, rfl⟩
  intro b hp
  simp only [parse_header_lines, setKeepAlive_content_length,
    setKeepAlive_headers, setContentLength_headers]
  rfl

/-- C10: for every message parsed from a fresh builder (whose initial
`keep_alive` is `true`), the computed `keep_alive` is: for version
`HTTP/1.1`, true unless the `Connection` value compares (lower-cased,
hence case-insensitively) equal to `close`; for any other version, true
iff the value compares equal to `keep-alive`. -/
theorem c10_keep_alive_computation (b : MessageBuilderHTTP)
    (hp : List Char) (hka : b.keep_alive = true) :
    ((parse_header_lines b hp).keep_alive = true ↔
      (if (parse_header_lines b hp).http_version = "HTTP/1.1" then
        ¬ pyLower
            (dictGet (parse_header_lines b hp).headers "Connection" "")
          = "close"
      else
        pyLower (dictGet (parse_header_lines b hp).headers "Connection" "")
          = "keep-alive")) := by
  have hka2 : (setContentLength (List.foldl processHeaderLine
      (parseFirstLine b ((splitOnCRLF hp).headD []))
      (splitOnCRLF hp).tail)).keep_alive = true := by
    rw [setContentLength_keep_alive, foldl_processHeaderLine_keep_alive,
      parseFirstLine_keep_alive, hka]
  simp only [parse_header_lines]
  rw [setKeepAlive_http_version, setKeepAlive_headers]
  simp only [setKeepAlive]
  by_cases hv : (setContentLength (List.foldl processHeaderLine
      (parseFirstLine b ((splitOnCRLF hp).headD []))
      (splitOnCRLF hp).tail)).http_version = "HTTP/1.1"
  · rw [if_pos hv, if_pos hv]
    by_cases hc : pyLower (dictGet (setContentLength
        (List.foldl processHeaderLine
          (parseFirstLine b ((splitOnCRLF hp).headD []))
          (splitOnCRLF hp).tail)).headers "Connection" "") = "close"
    · rw [if_pos hc]
      constructor
      · intro hfalse
        exact Bool.noConfusion (show (false : Bool) = true from hfalse)
      · intro hncl
        exact absurd hc hncl
    · rw [if_neg hc]
      constructor
      · intro _
        exact hc
      · intro _
        exact hka2
  · rw [if_neg hv, if_neg hv]
    constructor
    · intro hdec
      exact of_decide_eq_true hdec
    · intro hp2
      exact decide_eq_true hp2

/-- Witness for `c10_keep_alive_computation` on an `HTTP/1.0` request
with `Connection: keep-alive`. -/
theorem c10_keep_alive_computation_witness :
    ((parse_header_lines initMB
        "GET / HTTP/1.0\r\nConnection: keep-alive".toList).keep_alive
          = true ↔
      (if (parse_header_lines initMB
            "GET / HTTP/1.0\r\nConnection: keep-alive".toList).http_version
          = "HTTP/1.1" then
        ¬ pyLower (dictGet (parse_header_lines initMB
            "GET / HTTP/1.0\r\nConnection: keep-alive".toList).headers
            "Connection" "") = "close"
      else
        pyLower (dictGet (parse_header_lines initMB
            "GET / HTTP/1.0\r\nConnection: keep-alive".toList).headers
            "Connection" "") = "keep-alive")) :=
  c10_keep_alive_computation initMB
    "GET / HTTP/1.0\r\nConnection: keep-alive".toList rfl

end SimpleHttpProxy
